import Mathlib

/-!
Verification of the TSE volume screener (`src/app.py`).

The program is a single-file screener: it parses a free-form list of ticker
codes, fetches daily OHLCV bars per ticker, runs a per-ticker arithmetic
filter pipeline (volume build-up ratio, single-day spike ratio, day-change
bound, continuity check), and ranks the passing rows.

Shallow embedding conventions:
* Python floats are modelled as `ℚ` (the screener only adds, divides and
  compares; `float("nan")` results are modelled as `Option.none`).
* pandas `Series.tail/head/mean` become `List.drop/take` plus a mean that is
  `none` on the empty window (pandas returns NaN there).
* Python strings are modelled at the character-list level (`List Char`),
  because the screener's parsing is character-wise; Python's `str` ordering
  (code-point lexicographic) is `List.Lex (· < ·)` on `Char`.
* Fallible steps (negative `iloc` indexing, division) run in
  `Except Err`, so that "no index error / no division by zero" is a provable
  statement rather than an implicit convention.
-/

namespace TSE

/-! ### Python string helpers, character-level (`src/app.py` lines 48-61) -/

/-- Scanner for `pySplitlines`: `cur` is the current line, reversed. -/
def pySplitlinesAux (cur : List Char) : List Char → List (List Char)
  | [] => if cur.isEmpty then [] else [cur.reverse]
  | '\n' :: rest => cur.reverse :: pySplitlinesAux [] rest
  | c :: rest => pySplitlinesAux (c :: cur) rest

/-- Python `str.splitlines` restricted to `'\n'` separators (the only line
separator that can occur here: the text area input joined with `'\n'` after
`text.replace(",", "\n")`).  Python drops a trailing empty final line:
`"a\n".splitlines() == ["a"]`, `"".splitlines() == []`. -/
def pySplitlines (l : List Char) : List (List Char) :=
  pySplitlinesAux [] l

/-- Python `str.strip()`: remove leading and trailing whitespace. -/
def pyStrip (l : List Char) : List Char :=
  ((l.dropWhile Char.isWhitespace).reverse.dropWhile Char.isWhitespace).reverse

/-- Python `str.isdigit()` (ASCII digits; the screener only feeds it ticker
codes): true iff nonempty and all characters are digits. -/
def pyIsdigit (l : List Char) : Bool :=
  !l.isEmpty && l.all Char.isDigit

/-- The loop body of `parse_codes` (`app.py` lines 56-60): a token of exactly
4 digits gets the Tokyo Stock Exchange suffix `".T"` appended; every other
token passes through unchanged. -/
def normalize_code (r : List Char) : List Char :=
  if pyIsdigit r ∧ r.length = 4 then r ++ ['.', 'T'] else r

/-- The stripped, nonempty, normalized tokens of the input text, in input
order, duplicates kept: `text.replace(",", "\n").splitlines()` followed by
the strip/skip/normalize loop of `parse_codes`. -/
def rawTokens (text : String) : List (List Char) :=
  (pySplitlines (text.data.map (fun c => if c = ',' then '\n' else c))).filterMap
    (fun r =>
      let s := pyStrip r
      if s.isEmpty then none else some (normalize_code s))

/-- Python string `<` on character lists: code-point lexicographic
(strict). -/
def chLT (a b : List Char) : Prop := List.Lex (· < ·) a b

instance : DecidableRel chLT := fun a b =>
  inferInstanceAs (Decidable (List.Lex (· < ·) a b))

instance : IsTrichotomous (List Char) chLT :=
  inferInstanceAs (IsTrichotomous (List Char) (List.Lex (· < ·)))

instance : IsAsymm (List Char) chLT :=
  inferInstanceAs (IsAsymm (List Char) (List.Lex (· < ·)))

instance : IsTrans (List Char) chLT :=
  inferInstanceAs (IsTrans (List Char) (List.Lex (· < ·)))

instance : IsIrrefl (List Char) chLT :=
  inferInstanceAs (IsIrrefl (List Char) (List.Lex (· < ·)))

/-- Python string `≤` on character lists: code-point lexicographic. -/
def chLE (a b : List Char) : Prop := ¬ chLT b a

instance : DecidableRel chLE := fun a b =>
  inferInstanceAs (Decidable (¬ chLT b a))

/-- Python string `≤` lifted to `String` (used only to state sortedness of
the parser output). -/
def pyLE (a b : String) : Prop := chLE a.data b.data

instance : DecidableRel pyLE := fun a b => inferInstanceAs (Decidable (chLE a.data b.data))

/-- `parse_codes` (`app.py` lines 48-61): split the input on commas and
newlines, strip whitespace, drop empty entries, append `".T"` to 4-digit
codes, then `sorted(set(codes))`. -/
def parse_codes (text : String) : List String :=
  (List.insertionSort chLE (rawTokens text).dedup).map List.asString

/-! ### History fetcher normalization (`src/app.py` lines 64-93)

`yf.download` itself is the external provider; what the repository owns is
the normalization after the download: `None`/empty → empty frame,
`reset_index` + rename of the first column to `"Date"`, the required-column
check, the projection onto `["Date","Open","Close","Volume"]` and `dropna()`.
A provider frame is a column-name list plus rows of optional cells
(`none` = NaN/missing).  Dates are modelled as `ℚ` ordinals: the
normalization never computes with cell values, it only tests missingness. -/

structure RawFrame where
  cols : List String
  rows : List (List (Option ℚ))

/-- One normalized daily bar `{Date, Open, Close, Volume}`.  `openPrice` is
the `Open` column (`open` is a Lean keyword). -/
structure Bar where
  date : ℚ
  openPrice : ℚ
  close : ℚ
  volume : ℚ
deriving DecidableEq

/-- `keep_cols` of `fetch_ohlcv` (`app.py` line 87). -/
def keep_cols : List String := ["Date", "Open", "Close", "Volume"]

/-- Lines 82-84: after `reset_index`, if no `"Date"` column is present the
first column is renamed to `"Date"`. -/
def renameDate (cols : List String) : List String :=
  if "Date" ∈ cols then cols
  else
    match cols with
    | [] => []
    | _ :: rest => "Date" :: rest

/-- The cell of `row` under column name `c` (missing column index ⇒ `none`,
like indexing past the row: only reachable on malformed frames). -/
def colVal (cols : List String) (row : List (Option ℚ)) (c : String) : Option ℚ :=
  row.getD (cols.indexOf c) none

/-- `df[keep_cols].dropna()`, row-wise: a row survives iff all four kept
cells are present, and then becomes a `Bar`. -/
def rowToBar (cols : List String) (row : List (Option ℚ)) : Option Bar :=
  match colVal cols row "Date", colVal cols row "Open",
        colVal cols row "Close", colVal cols row "Volume" with
  | some d, some o, some c, some v => some ⟨d, o, c, v⟩
  | _, _, _, _ => none

/-- `fetch_ohlcv` after the download (`app.py` lines 79-93): `None` or empty
frame → empty result; missing required column → empty result; otherwise
project onto the four kept columns and drop rows with missing values. -/
def fetch_norm (df : Option RawFrame) : List Bar :=
  match df with
  | none => []
  | some f =>
    if f.rows.isEmpty then []
    else
      let cols := renameDate f.cols
      if keep_cols.all (fun c => cols.contains c) then
        f.rows.filterMap (rowToBar cols)
      else []

/-! ### Signal evaluator (`src/app.py` lines 105-186) -/

/-- The sidebar settings consumed by one run (`app.py` lines 14-42). -/
structure Config where
  lookback_days : ℕ
  recent_days : ℕ
  base_days : ℕ
  min_recent_ratio : ℚ
  spike_days : ℕ
  min_spike : ℚ
  max_day_change : ℚ
  min_base_avg_vol : ℚ
  top_n : ℕ

/-- `min_bars` (`app.py` line 120). -/
def min_bars (cfg : Config) : ℕ :=
  max (cfg.recent_days + cfg.base_days + 5) (max (cfg.spike_days + 5) (cfg.base_days + 10))

/-- pandas `Series.tail(k)`: the last `k` entries (all of them when the
series is shorter than `k`). -/
def pdTail (k : ℕ) (l : List ℚ) : List ℚ := l.drop (l.length - k)

/-- pandas `Series.head(k)`: the first `k` entries. -/
def pdHead (k : ℕ) (l : List ℚ) : List ℚ := l.take k

/-- pandas `Series.mean()`: NaN (here `none`) on an empty series. -/
def pdMean (l : List ℚ) : Option ℚ :=
  if l.isEmpty then none else some (l.sum / l.length)

/-- `safe_pct_change` (`app.py` lines 96-99); `none` is the `float("nan")`
return. -/
def safe_pct_change (today_close prev_close : ℚ) : Option ℚ :=
  if prev_close ≤ 0 then none
  else some ((today_close - prev_close) / prev_close * 100)

/-- `recent_avg = vol.tail(recent_days).mean()` (line 144). -/
def recent_avg_of (cfg : Config) (vol : List ℚ) : Option ℚ :=
  pdMean (pdTail cfg.recent_days vol)

/-- `base_avg = vol.tail(recent_days + base_days).head(base_days).mean()`
(lines 145-146). -/
def base_avg_of (cfg : Config) (vol : List ℚ) : Option ℚ :=
  pdMean (pdHead cfg.base_days (pdTail (cfg.recent_days + cfg.base_days) vol))

/-- `spike_base = vol.tail(spike_days + 1).head(spike_days).mean()`
(lines 160-161). -/
def spike_base_of (cfg : Config) (vol : List ℚ) : Option ℚ :=
  pdMean (pdHead cfg.spike_days (pdTail (cfg.spike_days + 1) vol))

/-- The runtime failures the evaluator could in principle hit: an
out-of-bounds positional access (`iloc`) or a division by zero. -/
inductive Err
  | indexError
  | divByZero
deriving DecidableEq

/-- Checked `series.iloc[-k]`: the `k`-th entry from the end, an
`indexError` when the series is shorter than `k` (pandas raises there). -/
def ilocNeg (l : List ℚ) (k : ℕ) : Except Err ℚ :=
  if 1 ≤ k ∧ k ≤ l.length then
    match l[l.length - k]? with
    | some x => .ok x
    | none => .error .indexError
  else .error .indexError

/-- Checked division. -/
def checkedDiv (a b : ℚ) : Except Err ℚ :=
  if b = 0 then .error .divByZero else .ok (a / b)

/-- Python `int(...)` on a float: truncation toward zero. -/
def pyInt (q : ℚ) : ℤ := if 0 ≤ q then ⌊q⌋ else ⌈q⌉

/-- `t.replace(".T", "")` at character level (line 177): remove every
(non-overlapping, left-to-right) occurrence of `".T"`. -/
def pyReplaceDotT : List Char → List Char
  | '.' :: 'T' :: rest => pyReplaceDotT rest
  | c :: rest => c :: pyReplaceDotT rest
  | [] => []

/-- One output row (`app.py` lines 175-186), fields in source order:
`Ticker`, `Code`, `最終日` (last date), `終値` (close), `当日騰落率(%)`
(day-change %), `当日出来高` (today's volume, as int), `当日出来高倍率`
(today's volume ratio), `直近平均出来高` (recent average volume, as int),
`比較平均出来高` (base average volume, as int), `直近/比較倍率`
(recent/base ratio). -/
structure Row where
  ticker : String
  code : String
  last_date : ℚ
  close : ℚ
  day_change_pct : ℚ
  today_vol : ℤ
  today_ratio : ℚ
  recent_avg_vol : ℤ
  base_avg_vol : ℤ
  recent_base_ratio : ℚ
deriving DecidableEq

/-- The per-symbol body of the main loop (`app.py` lines 126-186), given the
already-normalized bar series.  `.ok none` is a `continue` (skip), `.ok
(some row)` a collected row; `.error` marks a runtime failure, which the
safety theorem shows unreachable. -/
def evaluate (cfg : Config) (t : String) (df : List Bar) : Except Err (Option Row) :=
  -- line 126: `if df.empty or len(df) < min_bars: continue`
  if df.isEmpty ∨ df.length < min_bars cfg then .ok none else
  match ilocNeg (df.map Bar.close) 1 with
  | .error e => .error e
  | .ok today_close =>
  match ilocNeg (df.map Bar.close) 2 with
  | .error e => .error e
  | .ok prev_close =>
  -- lines 135-137: `day_change_pct`, skip when NaN
  match safe_pct_change today_close prev_close with
  | none => .ok none
  | some day_change_pct =>
  -- lines 140-141: price "has not run yet" filter (upper bound only)
  if cfg.max_day_change < day_change_pct then .ok none else
  match recent_avg_of cfg (df.map Bar.volume), base_avg_of cfg (df.map Bar.volume) with
  | some recent_avg, some base_avg =>
    -- line 148: `if pd.isna(recent_avg) or pd.isna(base_avg) or base_avg <= 0`
    if base_avg ≤ 0 then .ok none else
    -- line 151: liquidity floor
    if base_avg < cfg.min_base_avg_vol then .ok none else
    match checkedDiv recent_avg base_avg with
    | .error e => .error e
    | .ok recent_ratio =>
    if recent_ratio < cfg.min_recent_ratio then .ok none else
    match ilocNeg (df.map Bar.volume) 1 with
    | .error e => .error e
    | .ok today_vol =>
    match spike_base_of cfg (df.map Bar.volume) with
    | none => .ok none
    | some spike_base =>
    if spike_base ≤ 0 then .ok none else
    match checkedDiv today_vol spike_base with
    | .error e => .error e
    | .ok today_ratio =>
    if today_ratio < cfg.min_spike then .ok none else
    -- lines 171-173: continuity check on the previous day's volume
    match ilocNeg (df.map Bar.volume) 2 with
    | .error e => .error e
    | .ok prev_vol =>
    if prev_vol < spike_base then .ok none else
    match ilocNeg (df.map Bar.date) 1 with
    | .error e => .error e
    | .ok last_date =>
    .ok (some ⟨t, (pyReplaceDotT t.data).asString, last_date, today_close,
      day_change_pct, pyInt today_vol, today_ratio, pyInt recent_avg,
      pyInt base_avg, recent_ratio⟩)
  | _, _ => .ok none

/-! ### Ranker and run-level control flow (`src/app.py` lines 105-195) -/

/-- The descending lexicographic order of line 195:
`out.sort_values(["当日出来高倍率", "直近/比較倍率"], ascending=False)` —
primary key today's volume ratio, tie broken by the recent/base ratio, both
descending. -/
def rankLE (a b : Row) : Prop :=
  b.today_ratio < a.today_ratio ∨
    (b.today_ratio = a.today_ratio ∧ b.recent_base_ratio ≤ a.recent_base_ratio)

instance : DecidableRel rankLE := fun a b =>
  inferInstanceAs (Decidable (b.today_ratio < a.today_ratio ∨
    (b.today_ratio = a.today_ratio ∧ b.recent_base_ratio ≤ a.recent_base_ratio)))

/-- Line 195: stable sort by the two keys descending, then `head(top_n)`.
(pandas' multi-key `sort_values` is numpy `lexsort`, a stable sort; so is
insertion sort.) -/
def rank (n : ℕ) (rows : List Row) : List Row :=
  (List.insertionSort rankLE rows).take n

/-- Outcome of one click of the run button. -/
inductive RunOutcome
  | inputError
  | noMatches
  | results (rows : List Row)
deriving DecidableEq

/-- One iteration of the main loop for ticker `t`: fetch, normalize,
evaluate; only `.ok (some row)` contributes a row. -/
def screenRow (cfg : Config) (fetch : String → ℕ → Option RawFrame) (t : String) : Option Row :=
  match evaluate cfg t (fetch_norm (fetch t cfg.lookback_days)) with
  | .ok (some r) => some r
  | _ => none

/-- The run handler (`app.py` lines 109-195): empty code list → input error
(`st.error` + `st.stop()`, before any fetch); no collected rows → the
"no matches" notice; otherwise the ranked, truncated table.  The second
component records which tickers were fetched, in order. -/
def runScreen (cfg : Config) (text : String) (fetch : String → ℕ → Option RawFrame) :
    RunOutcome × List String :=
  let codes := parse_codes text
  if codes.length = 0 then (.inputError, [])
  else
    let rows := codes.filterMap (screenRow cfg fetch)
    if rows.isEmpty then (.noMatches, codes)
    else (.results (rank cfg.top_n rows), codes)

/-! ### Concrete data used in witnesses and counterexamples -/

/-- A realistic sidebar configuration (all values inside the slider ranges):
lookback 160, recent 3, base 10, min recent/base ratio 1, spike 10, min
spike 1, max day-change 15, liquidity floor 0, top 50.
`min_bars` for it is `max (3+10+5) (max (10+5) (10+10)) = 20`. -/
def cfgA : Config := ⟨160, 3, 10, 1, 10, 1, 15, 0, 50⟩

/-- A flat bar: open = close = `c`, volume = `v`, date 0. -/
def flatBar (c v : ℚ) : Bar := ⟨0, c, c, v⟩

/-- A 20-bar series: 19 flat bars (close 100, volume 100) followed by a
final bar closing at `q` on volume 100.  Every volume window is constant at
100, so all volume filters of `cfgA` pass with ratio 1, and the day-change
is `(q - 100) / 100 * 100 = q - 100`. -/
def calmSeries (q : ℚ) : List Bar :=
  [flatBar 100 100, flatBar 100 100, flatBar 100 100, flatBar 100 100,
   flatBar 100 100, flatBar 100 100, flatBar 100 100, flatBar 100 100,
   flatBar 100 100, flatBar 100 100, flatBar 100 100, flatBar 100 100,
   flatBar 100 100, flatBar 100 100, flatBar 100 100, flatBar 100 100,
   flatBar 100 100, flatBar 100 100, flatBar 100 100, ⟨0, 100, q, 100⟩]

/-- A provider frame whose middle row (trading day 2) has a missing volume
cell: `dropna()` removes it from the interior of the range. -/
def gapFrame : RawFrame :=
  ⟨keep_cols,
    [[some 1, some 10, some 11, some 100],
     [some 2, some 10, some 11, none],
     [some 3, some 10, some 11, some 300]]⟩

/-! ### Theorems -/

/-- A successful checked division determines the quotient. -/
theorem checkedDiv_ok {a b q : ℚ} (h : checkedDiv a b = .ok q) : q = a / b := by
  unfold checkedDiv at h
  split at h
  · exact absurd h (by simp)
  · simp only [Except.ok.injEq] at h
    exact h.symm

/-- Division by a nonzero denominator succeeds. -/
theorem checkedDiv_ok_of_ne {a b : ℚ} (hb : b ≠ 0) : checkedDiv a b = .ok (a / b) := by
  unfold checkedDiv
  rw [if_neg hb]

/-- A negative positional access within bounds succeeds. -/
theorem ilocNeg_ok {l : List ℚ} {k : ℕ} (h1 : 1 ≤ k) (h2 : k ≤ l.length) :
    ∃ x, ilocNeg l k = .ok x := by
  unfold ilocNeg
  rw [if_pos ⟨h1, h2⟩]
  have hlt : l.length - k < l.length := by omega
  rw [List.getElem?_eq_getElem hlt]
  exact ⟨_, rfl⟩

/-- `min_bars` is at least 10 for every configuration. -/
theorem min_bars_ge_ten (cfg : Config) : 10 ≤ min_bars cfg := by
  unfold min_bars
  omega

/-- A series at least `min_bars` long is neither empty nor short: the
length guard of line 126 passes. -/
theorem length_guard_passes {cfg : Config} {df : List Bar}
    (h : min_bars cfg ≤ df.length) :
    ¬(df.isEmpty = true ∨ df.length < min_bars cfg) := by
  have h10 := min_bars_ge_ten cfg
  simp only [not_or, not_lt]
  refine ⟨?_, h⟩
  simp only [List.isEmpty_iff]
  intro hnil
  rw [hnil] at h
  simp at h
  omega

/-- Full success characterization of the evaluator, backward direction:
when every guard of the pipeline passes, `evaluate` collects exactly the
row of lines 175-186. -/
theorem evaluate_complete (cfg : Config) (t : String) (df : List Bar)
    {today_close prev_close day_change_pct recent_avg base_avg : ℚ}
    {today_vol spike_base prev_vol last_date : ℚ}
    (hlen : min_bars cfg ≤ df.length)
    (h1 : ilocNeg (df.map Bar.close) 1 = .ok today_close)
    (h2 : ilocNeg (df.map Bar.close) 2 = .ok prev_close)
    (h3 : safe_pct_change today_close prev_close = some day_change_pct)
    (h4 : day_change_pct ≤ cfg.max_day_change)
    (h5 : recent_avg_of cfg (df.map Bar.volume) = some recent_avg)
    (h6 : base_avg_of cfg (df.map Bar.volume) = some base_avg)
    (h7 : 0 < base_avg)
    (h8 : cfg.min_base_avg_vol ≤ base_avg)
    (h9 : cfg.min_recent_ratio ≤ recent_avg / base_avg)
    (h10 : ilocNeg (df.map Bar.volume) 1 = .ok today_vol)
    (h11 : spike_base_of cfg (df.map Bar.volume) = some spike_base)
    (h12 : 0 < spike_base)
    (h13 : cfg.min_spike ≤ today_vol / spike_base)
    (h14 : ilocNeg (df.map Bar.volume) 2 = .ok prev_vol)
    (h15 : spike_base ≤ prev_vol)
    (h16 : ilocNeg (df.map Bar.date) 1 = .ok last_date) :
    evaluate cfg t df = .ok (some ⟨t, (pyReplaceDotT t.data).asString, last_date,
      today_close, day_change_pct, pyInt today_vol, today_vol / spike_base,
      pyInt recent_avg, pyInt base_avg, recent_avg / base_avg⟩) := by
  unfold evaluate
  rw [if_neg (length_guard_passes hlen), h1]
  simp only []
  rw [h2]
  simp only []
  rw [h3]
  simp only []
  rw [if_neg (not_lt.2 h4), h5, h6]
  simp only []
  rw [if_neg (not_le.2 h7), if_neg (not_lt.2 h8),
    checkedDiv_ok_of_ne (ne_of_gt h7)]
  simp only []
  rw [if_neg (not_lt.2 h9), h10]
  simp only []
  rw [h11]
  simp only []
  rw [if_neg (not_le.2 h12), checkedDiv_ok_of_ne (ne_of_gt h12)]
  simp only []
  rw [if_neg (not_lt.2 h13), h14]
  simp only []
  rw [if_neg (not_lt.2 h15), h16]

/-- Full success characterization of the evaluator, forward direction:
every collected row passed every guard of the pipeline, and its fields are
the computed ratios. -/
theorem evaluate_pass {cfg : Config} {t : String} {df : List Bar} {row : Row}
    (h : evaluate cfg t df = .ok (some row)) :
    min_bars cfg ≤ df.length
    ∧ (∃ tc pc dc, ilocNeg (df.map Bar.close) 1 = .ok tc
        ∧ ilocNeg (df.map Bar.close) 2 = .ok pc
        ∧ safe_pct_change tc pc = some dc
        ∧ dc ≤ cfg.max_day_change
        ∧ row.day_change_pct = dc)
    ∧ (∃ ra ba, recent_avg_of cfg (df.map Bar.volume) = some ra
        ∧ base_avg_of cfg (df.map Bar.volume) = some ba
        ∧ 0 < ba ∧ cfg.min_base_avg_vol ≤ ba
        ∧ cfg.min_recent_ratio ≤ ra / ba
        ∧ row.recent_base_ratio = ra / ba)
    ∧ (∃ tv sb pv, ilocNeg (df.map Bar.volume) 1 = .ok tv
        ∧ spike_base_of cfg (df.map Bar.volume) = some sb
        ∧ 0 < sb
        ∧ cfg.min_spike ≤ tv / sb
        ∧ ilocNeg (df.map Bar.volume) 2 = .ok pv
        ∧ sb ≤ pv
        ∧ row.today_ratio = tv / sb) := by
  unfold evaluate at h
  split at h
  · simp at h
  rename_i hguard
  have hlen : min_bars cfg ≤ df.length := by
    simp only [not_or, not_lt] at hguard
    exact hguard.2
  cases hc1 : ilocNeg (df.map Bar.close) 1 with
  | error e => rw [hc1] at h; simp at h
  | ok today_close =>
  rw [hc1] at h
  simp only [] at h
  cases hc2 : ilocNeg (df.map Bar.close) 2 with
  | error e => rw [hc2] at h; simp at h
  | ok prev_close =>
  rw [hc2] at h
  simp only [] at h
  cases hc3 : safe_pct_change today_close prev_close with
  | none => rw [hc3] at h; simp at h
  | some day_change_pct =>
  rw [hc3] at h
  simp only [] at h
  by_cases hc4 : cfg.max_day_change < day_change_pct
  · rw [if_pos hc4] at h; simp at h
  rw [if_neg hc4] at h
  cases hc5 : recent_avg_of cfg (df.map Bar.volume) with
  | none => rw [hc5] at h; simp only [] at h; simp at h
  | some recent_avg =>
  cases hc6 : base_avg_of cfg (df.map Bar.volume) with
  | none => rw [hc5, hc6] at h; simp only [] at h; simp at h
  | some base_avg =>
  rw [hc5, hc6] at h
  simp only [] at h
  by_cases hc7 : base_avg ≤ 0
  · rw [if_pos hc7] at h; simp at h
  rw [if_neg hc7] at h
  by_cases hc8 : base_avg < cfg.min_base_avg_vol
  · rw [if_pos hc8] at h; simp at h
  rw [if_neg hc8] at h
  rw [checkedDiv_ok_of_ne (fun hz => hc7 (le_of_eq hz))] at h
  simp only [] at h
  by_cases hc9 : recent_avg / base_avg < cfg.min_recent_ratio
  · rw [if_pos hc9] at h; simp at h
  rw [if_neg hc9] at h
  cases hc10 : ilocNeg (df.map Bar.volume) 1 with
  | error e => rw [hc10] at h; simp at h
  | ok today_vol =>
  rw [hc10] at h
  simp only [] at h
  cases hc11 : spike_base_of cfg (df.map Bar.volume) with
  | none => rw [hc11] at h; simp at h
  | some spike_base =>
  rw [hc11] at h
  simp only [] at h
  by_cases hc12 : spike_base ≤ 0
  · rw [if_pos hc12] at h; simp at h
  rw [if_neg hc12] at h
  rw [checkedDiv_ok_of_ne (fun hz => hc12 (le_of_eq hz))] at h
  simp only [] at h
  by_cases hc13 : today_vol / spike_base < cfg.min_spike
  · rw [if_pos hc13] at h; simp at h
  rw [if_neg hc13] at h
  cases hc14 : ilocNeg (df.map Bar.volume) 2 with
  | error e => rw [hc14] at h; simp at h
  | ok prev_vol =>
  rw [hc14] at h
  simp only [] at h
  by_cases hc15 : prev_vol < spike_base
  · rw [if_pos hc15] at h; simp at h
  rw [if_neg hc15] at h
  cases hc16 : ilocNeg (df.map Bar.date) 1 with
  | error e => rw [hc16] at h; simp at h
  | ok last_date =>
  rw [hc16] at h
  simp only [Except.ok.injEq, Option.some.injEq] at h
  subst h
  exact ⟨hlen,
    ⟨today_close, prev_close, day_change_pct, rfl, rfl, hc3, not_lt.1 hc4, rfl⟩,
    ⟨recent_avg, base_avg, rfl, rfl, lt_of_not_le hc7, not_lt.1 hc8,
      not_lt.1 hc9, rfl⟩,
    ⟨today_vol, spike_base, prev_vol, rfl, rfl, lt_of_not_le hc12,
      not_lt.1 hc13, rfl, not_lt.1 hc15, rfl⟩⟩

/-- The mean does not depend on the order of the window. -/
theorem pdMean_reverse (l : List ℚ) : pdMean l.reverse = pdMean l := by
  simp [pdMean, List.sum_reverse]

/-- A trailing window counted backward from the most recent bar (`drop i`
then `take j` on the reversed series) is the reversal of the forward slice
at offset `length - i - j`. -/
theorem rev_window (v : List ℚ) (i j : ℕ) (h : i + j ≤ v.length) :
    (v.reverse.drop i).take j = ((v.drop (v.length - i - j)).take j).reverse := by
  rw [List.drop_reverse, List.take_reverse]
  have h1 : (v.take (v.length - i)).length = v.length - i := by
    rw [List.length_take]
    omega
  rw [h1, List.drop_take]
  have h2 : v.length - i - (v.length - i - j) = j := by omega
  have h3 : v.length - i - j = v.length - (i + j) := by omega
  rw [h2, h3]

/-- Claim C1: for every series long enough to be evaluated, the recent
average is the mean of the most recent `recent_days` bars' volume, the base
average is the mean of the `base_days` bars immediately preceding the
recent window, and the spike-base average is the mean of the `spike_days`
bars ending the day before today (today's bar excluded).  The right-hand
sides slice the reversed series, i.e. count backward from the most recent
bar: the newest `recent_days` bars; the `base_days` bars after skipping the
newest `recent_days`; the `spike_days` bars after skipping today's bar. -/
theorem C1_window_averages (cfg : Config) (v : List ℚ) (h : min_bars cfg ≤ v.length) :
    recent_avg_of cfg v = pdMean (v.reverse.take cfg.recent_days)
    ∧ base_avg_of cfg v = pdMean ((v.reverse.drop cfg.recent_days).take cfg.base_days)
    ∧ spike_base_of cfg v = pdMean ((v.reverse.drop 1).take cfg.spike_days) := by
  have hA : cfg.recent_days + cfg.base_days + 5 ≤ v.length :=
    le_trans (Nat.le_max_left _ _) h
  have hB : cfg.spike_days + 5 ≤ v.length :=
    le_trans (le_trans (Nat.le_max_left _ _) (Nat.le_max_right _ _)) h
  refine ⟨?_, ?_, ?_⟩
  · rw [List.take_reverse, pdMean_reverse]
    rfl
  · rw [rev_window v cfg.recent_days cfg.base_days (by omega), pdMean_reverse]
    have : v.length - cfg.recent_days - cfg.base_days
        = v.length - (cfg.recent_days + cfg.base_days) := by omega
    rw [this]
    rfl
  · rw [rev_window v 1 cfg.spike_days (by omega), pdMean_reverse]
    have : v.length - 1 - cfg.spike_days = v.length - (cfg.spike_days + 1) := by omega
    rw [this]
    rfl

/-- Witness for C1 at a concrete series of length `min_bars cfgA = 20`
(volumes 1..20): recent mean = (18+19+20)/3 = 19, base mean =
(8+...+17)/10 = 25/2, spike-base mean = (10+...+19)/10 = 29/2. -/
theorem C1_window_averages_witness :
    min_bars cfgA ≤ ([1, 2, 3, 4, 5, 6, 7, 8, 9, 10, 11, 12, 13, 14, 15, 16,
        17, 18, 19, 20] : List ℚ).length ∧
      recent_avg_of cfgA [1, 2, 3, 4, 5, 6, 7, 8, 9, 10, 11, 12, 13, 14, 15,
        16, 17, 18, 19, 20] = some 19
    ∧ base_avg_of cfgA [1, 2, 3, 4, 5, 6, 7, 8, 9, 10, 11, 12, 13, 14, 15,
        16, 17, 18, 19, 20] = some (25 / 2)
    ∧ spike_base_of cfgA [1, 2, 3, 4, 5, 6, 7, 8, 9, 10, 11, 12, 13, 14, 15,
        16, 17, 18, 19, 20] = some (29 / 2) := by
  have h := C1_window_averages cfgA [1, 2, 3, 4, 5, 6, 7, 8, 9, 10, 11, 12,
    13, 14, 15, 16, 17, 18, 19, 20] (by norm_num [cfgA, min_bars])
  refine ⟨by norm_num [cfgA, min_bars], h.1.trans ?_, h.2.1.trans ?_, h.2.2.trans ?_⟩
  · norm_num [cfgA, pdMean, min_def]
  · norm_num [cfgA, pdMean, min_def]
  · norm_num [cfgA, pdMean, min_def]

instance : IsTotal (List Char) chLE where
  total a b := by
    rcases trichotomous_of chLT a b with h | h | h
    · exact Or.inl (asymm h)
    · cases h
      exact Or.inl (irrefl_of chLT a)
    · exact Or.inr (asymm h)

instance : IsTrans (List Char) chLE where
  trans a b c hab hbc := by
    intro hca
    rcases trichotomous_of chLT c b with h | h | h
    · exact hbc h
    · exact hab (h ▸ hca)
    · exact hab (trans_of chLT h hca)

instance : IsAntisymm (List Char) chLE where
  antisymm a b hab hba := by
    rcases trichotomous_of chLT a b with h | h | h
    · exact absurd h hba
    · exact h
    · exact absurd h hab

/-- Claim C6: the parser splits on commas and newlines, trims whitespace,
drops empty entries, appends the `".T"` exchange suffix to every token of
exactly 4 digits, passes every other token through unchanged, and returns
the symbols deduplicated and sorted (Python string order), independently of
input order and separator mix (any two inputs producing the same tokens up
to permutation parse identically). -/
theorem C6_parse_codes (text t₁ t₂ : String) (r : List Char) :
    List.Sorted pyLE (parse_codes text)
    ∧ (parse_codes text).Nodup
    ∧ (pyIsdigit r ∧ r.length = 4 → normalize_code r = r ++ ['.', 'T'])
    ∧ (¬(pyIsdigit r ∧ r.length = 4) → normalize_code r = r)
    ∧ ((rawTokens t₁).Perm (rawTokens t₂) → parse_codes t₁ = parse_codes t₂) := by
  have hinj : Function.Injective List.asString := fun a b h => congrArg String.data h
  refine ⟨?_, ?_, fun h => by simp [normalize_code, h.1, h.2],
      fun h => by simp [normalize_code, h], fun h => ?_⟩
  · exact List.Pairwise.map _ (fun a b hab => hab)
      (List.sorted_insertionSort chLE (rawTokens text).dedup)
  · exact ((List.perm_insertionSort chLE _).nodup_iff.2
      (List.nodup_dedup _)).map hinj
  · have hd : (rawTokens t₁).dedup.Perm (rawTokens t₂).dedup := h.dedup
    have hs : List.insertionSort chLE (rawTokens t₁).dedup
        = List.insertionSort chLE (rawTokens t₂).dedup :=
      List.eq_of_perm_of_sorted
        ((List.perm_insertionSort chLE _).trans
          (hd.trans (List.perm_insertionSort chLE _).symm))
        (List.sorted_insertionSort chLE _) (List.sorted_insertionSort chLE _)
    rw [parse_codes, parse_codes, hs]

/-- Witness for C6: `"7203"` gets the suffix; `"6758.T"` passes through;
comma and newline inputs with reordered tokens parse identically; output is
deduplicated and sorted. -/
theorem C6_parse_codes_witness :
    (pyIsdigit "7203".data ∧ "7203".data.length = 4)
    ∧ normalize_code "7203".data = "7203".data ++ ['.', 'T']
    ∧ normalize_code "6758.T".data = "6758.T".data
    ∧ (rawTokens "7203,6758").Perm (rawTokens "6758\n7203")
    ∧ parse_codes "7203,6758" = parse_codes "6758\n7203"
    ∧ parse_codes "7203,6758\n 7203 " = ["6758.T", "7203.T"] :=
  ⟨by decide, (C6_parse_codes "" "" "" "7203".data).2.2.1 (by decide),
    (C6_parse_codes "" "" "" "6758.T".data).2.2.2.1 (by decide),
    by decide, (C6_parse_codes "" "7203,6758" "6758\n7203" []).2.2.2.2 (by decide),
    by decide⟩

instance : IsTotal Row rankLE where
  total a b := by
    rcases lt_trichotomy a.today_ratio b.today_ratio with h | h | h
    · exact Or.inr (Or.inl h)
    · rcases le_total b.recent_base_ratio a.recent_base_ratio with h2 | h2
      · exact Or.inl (Or.inr ⟨h.symm, h2⟩)
      · exact Or.inr (Or.inr ⟨h, h2⟩)
    · exact Or.inl (Or.inl h)

instance : IsTrans Row rankLE where
  trans a b c hab hbc := by
    rcases hab with hab | ⟨hab1, hab2⟩ <;> rcases hbc with hbc | ⟨hbc1, hbc2⟩
    · exact Or.inl (lt_trans hbc hab)
    · exact Or.inl (hbc1 ▸ hab)
    · exact Or.inl (hab1 ▸ hbc)
    · exact Or.inr ⟨hbc1.trans hab1, hbc2.trans hab2⟩

/-- Claim C5: the ranker sorts the collected rows descending by today's
volume ratio, ties broken by the recent/base ratio also descending
(`rankLE`), and truncates to the first `n` rows after sorting; for two rows
with equal spike ratio, the one with the larger recent/base ratio ranks
above the other. -/
theorem C5_ranker (n : ℕ) (rows : List Row) (A B : Row) :
    (∃ l, rows.Perm l ∧ List.Sorted rankLE l ∧ rank n rows = l.take n)
    ∧ List.Sorted rankLE (rank n rows)
    ∧ (A.today_ratio = B.today_ratio → A.recent_base_ratio < B.recent_base_ratio →
        2 ≤ n → rank n [A, B] = [B, A]) := by
  have hsorted := List.sorted_insertionSort rankLE rows
  refine ⟨⟨List.insertionSort rankLE rows,
      (List.perm_insertionSort rankLE rows).symm, hsorted, rfl⟩,
    List.Pairwise.sublist (List.take_sublist n _) hsorted, fun h1 h2 h3 => ?_⟩
  have hnot : ¬ rankLE A B := by
    rintro (hlt | ⟨-, hle⟩)
    · exact absurd hlt (h1 ▸ lt_irrefl _)
    · exact absurd hle (not_le.2 h2)
  have : List.insertionSort rankLE [A, B] = [B, A] := by
    simp [List.insertionSort, List.orderedInsert, hnot]
  rw [rank, this, List.take_of_length_le (by simpa using h3)]

/-- Witness for C5 on two rows with equal spike ratio 5 and recent/base
ratios 2 and 3: the latter ranks first. -/
theorem C5_ranker_witness :
    (⟨"A", "A", 0, 0, 0, 0, 5, 0, 0, 2⟩ : Row).today_ratio
        = (⟨"B", "B", 0, 0, 0, 0, 5, 0, 0, 3⟩ : Row).today_ratio
    ∧ (⟨"A", "A", 0, 0, 0, 0, 5, 0, 0, 2⟩ : Row).recent_base_ratio
        < (⟨"B", "B", 0, 0, 0, 0, 5, 0, 0, 3⟩ : Row).recent_base_ratio
    ∧ rank 2 [⟨"A", "A", 0, 0, 0, 0, 5, 0, 0, 2⟩, ⟨"B", "B", 0, 0, 0, 0, 5, 0, 0, 3⟩]
        = [⟨"B", "B", 0, 0, 0, 0, 5, 0, 0, 3⟩, ⟨"A", "A", 0, 0, 0, 0, 5, 0, 0, 2⟩] :=
  ⟨rfl, by norm_num,
    (C5_ranker 2 [] ⟨"A", "A", 0, 0, 0, 0, 5, 0, 0, 2⟩
        ⟨"B", "B", 0, 0, 0, 0, 5, 0, 0, 3⟩).2.2 rfl (by norm_num) (by norm_num)⟩

theorem calm_close1 (q : ℚ) : ilocNeg ((calmSeries q).map Bar.close) 1 = .ok q := by
  norm_num [calmSeries, flatBar, ilocNeg]

theorem calm_close2 (q : ℚ) : ilocNeg ((calmSeries q).map Bar.close) 2 = .ok 100 := by
  norm_num [calmSeries, flatBar, ilocNeg]

theorem calm_vol1 (q : ℚ) : ilocNeg ((calmSeries q).map Bar.volume) 1 = .ok 100 := by
  norm_num [calmSeries, flatBar, ilocNeg]

theorem calm_vol2 (q : ℚ) : ilocNeg ((calmSeries q).map Bar.volume) 2 = .ok 100 := by
  norm_num [calmSeries, flatBar, ilocNeg]

theorem calm_date1 (q : ℚ) : ilocNeg ((calmSeries q).map Bar.date) 1 = .ok 0 := by
  norm_num [calmSeries, flatBar, ilocNeg]

theorem calm_recent (q : ℚ) :
    recent_avg_of cfgA ((calmSeries q).map Bar.volume) = some 100 := by
  norm_num [calmSeries, flatBar, cfgA, recent_avg_of, pdTail, pdMean]

theorem calm_base (q : ℚ) :
    base_avg_of cfgA ((calmSeries q).map Bar.volume) = some 100 := by
  norm_num [calmSeries, flatBar, cfgA, base_avg_of, pdTail, pdHead, pdMean]

theorem calm_spike (q : ℚ) :
    spike_base_of cfgA ((calmSeries q).map Bar.volume) = some 100 := by
  norm_num [calmSeries, flatBar, cfgA, spike_base_of, pdTail, pdHead, pdMean]

/-- Under `cfgA`, the calm series always passes every volume filter with
ratio 1, and passes the day-change filter whenever the final close `q` is
at most 100; the collected row records day-change `q - 100`. -/
theorem evaluate_calm (q : ℚ) (hq : q ≤ 100) :
    evaluate cfgA "7203.T" (calmSeries q)
      = .ok (some ⟨"7203.T", "7203", 0, q, (q - 100) / 100 * 100, 100, 1, 100, 100, 1⟩) := by
  have hlen : min_bars cfgA ≤ (calmSeries q).length := by
    norm_num [cfgA, min_bars, calmSeries]
  have h3 : safe_pct_change q 100 = some ((q - 100) / 100 * 100) := by
    norm_num [safe_pct_change]
  have h4 : (q - 100) / 100 * 100 ≤ cfgA.max_day_change := by
    have : (q - 100) / 100 * 100 = q - 100 := by ring
    rw [this]
    norm_num [cfgA]
    linarith
  have h := evaluate_complete cfgA "7203.T" (calmSeries q) hlen
    (calm_close1 q) (calm_close2 q) h3 h4
    (calm_recent q) (calm_base q) (by norm_num) (by norm_num [cfgA])
    (by norm_num [cfgA]) (calm_vol1 q) (calm_spike q) (by norm_num)
    (by norm_num [cfgA]) (calm_vol2 q) (by norm_num) (calm_date1 q)
  rw [h]
  simp only [Except.ok.injEq, Option.some.injEq, Row.mk.injEq]
  norm_num [pyInt]
  decide

/-- The bars surviving `filterMap` keep the provider's order: pointwise
they form a subsequence of the per-row conversion results. -/
theorem filterMap_map_some_sublist {α β : Type} (g : α → Option β) (l : List α) :
    List.Sublist ((l.filterMap g).map some) (l.map g) := by
  induction l with
  | nil => simp
  | cons a l ih =>
    cases h : g a with
    | none =>
      rw [List.filterMap_cons_none h, List.map_cons, h]
      exact ih.cons _
    | some b =>
      rw [List.filterMap_cons_some h, List.map_cons, List.map_cons, h]
      exact ih.cons₂ _

/-- Claim C9, counterexample: the provider returned a (complete-dated) row
for trading day 2 inside the range, but the normalized series has no bar
for it — `dropna()` removed the interior row whose volume cell is missing,
so the normalized series is NOT gapless with respect to the fetched
calendar. -/
theorem C9_gapless_counterexample :
    (2 : ℚ) ∈ gapFrame.rows.filterMap (fun row => colVal keep_cols row "Date")
    ∧ (fetch_norm (some gapFrame)).map Bar.date = [1, 3]
    ∧ (2 : ℚ) ∉ (fetch_norm (some gapFrame)).map Bar.date := by
  decide

/-- Claim C9, amended: the normalized series is chronologically ordered
with respect to the provider frame — it is the in-order subsequence of the
provider's rows that have all four fields present — and every complete
provider row contributes its bar; but rows with a missing field are
dropped, possibly from the interior, so gaplessness holds only relative to
the complete rows. -/
theorem C9_ordered_not_gapless (f : RawFrame)
    (hc : f.cols = keep_cols) (hr : f.rows ≠ []) :
    List.Sublist ((fetch_norm (some f)).map some) (f.rows.map (rowToBar keep_cols))
    ∧ ∀ row ∈ f.rows, ∀ b, rowToBar keep_cols row = some b →
        b ∈ fetch_norm (some f) := by
  have hrename : renameDate keep_cols = keep_cols := by decide
  have hnorm : fetch_norm (some f) = f.rows.filterMap (rowToBar keep_cols) := by
    simp only [fetch_norm]
    rw [if_neg (by simpa using hr), hc, hrename, if_pos (by decide)]
  constructor
  · rw [hnorm]
    exact filterMap_map_some_sublist _ _
  · intro row hrow b hb
    rw [hnorm]
    exact List.mem_filterMap.mpr ⟨row, hrow, hb⟩

/-- Witness for the amended C9 at the gap frame: order is preserved and the
two complete rows survive. -/
theorem C9_ordered_not_gapless_witness :
    gapFrame.cols = keep_cols ∧ gapFrame.rows ≠ [] ∧
      List.Sublist ((fetch_norm (some gapFrame)).map some) (gapFrame.rows.map (rowToBar keep_cols)) :=
  ⟨rfl, by decide, (C9_ordered_not_gapless gapFrame rfl (by decide)).1⟩

/-- Claim C2: a collected row always has previous-day volume at least the
spike-base average; conversely, whenever the previous-day volume is
strictly below the spike-base average the symbol is excluded, no matter
what the other conditions do. -/
theorem C2_continuity (cfg : Config) (t : String) (df : List Bar) :
    (∀ row, evaluate cfg t df = .ok (some row) →
      ∃ sb pv, spike_base_of cfg (df.map Bar.volume) = some sb
        ∧ ilocNeg (df.map Bar.volume) 2 = .ok pv ∧ sb ≤ pv)
    ∧ (∀ sb pv, spike_base_of cfg (df.map Bar.volume) = some sb →
        ilocNeg (df.map Bar.volume) 2 = .ok pv → pv < sb →
        ∀ row, evaluate cfg t df ≠ .ok (some row)) := by
  constructor
  · intro row h
    obtain ⟨-, -, -, tv, sb, pv, -, h11, -, -, h14, h15, -⟩ := evaluate_pass h
    exact ⟨sb, pv, h11, h14, h15⟩
  · intro sb pv hsb hpv hlt row h
    obtain ⟨-, -, -, tv, sb2, pv2, -, h11, -, -, h14, h15, -⟩ := evaluate_pass h
    rw [hsb] at h11
    rw [hpv] at h14
    cases Option.some_inj.mp h11
    cases Except.ok.inj h14
    exact absurd h15 (not_le.2 hlt)

/-- Witness for C2: the calm series collects a row whose previous-day
volume 100 meets its spike-base average 100; the same series with the
previous-day volume pushed below the spike base is a skip, shown through
the general theorem by contradiction shape at a concrete input. -/
theorem C2_continuity_witness :
    evaluate cfgA "7203.T" (calmSeries 100)
        = .ok (some ⟨"7203.T", "7203", 0, 100, (100 - 100) / 100 * 100, 100, 1, 100, 100, 1⟩)
    ∧ ∃ sb pv, spike_base_of cfgA ((calmSeries 100).map Bar.volume) = some sb
        ∧ ilocNeg ((calmSeries 100).map Bar.volume) 2 = .ok pv ∧ sb ≤ pv :=
  ⟨evaluate_calm 100 (by norm_num),
    (C2_continuity cfgA "7203.T" (calmSeries 100)).1 _ (evaluate_calm 100 (by norm_num))⟩

/-- Claim C3: the day-change percentage is
`(today_close - prev_close) / prev_close * 100`; a day-change strictly
above the configured maximum excludes the symbol regardless of the volume
ratios; and only the upper bound is enforced — on the calm series any
final close `q ≤ 100` (hence any arbitrarily negative day-change `q - 100`)
still passes. -/
theorem C3_day_change_filter (cfg : Config) (t : String) (df : List Bar)
    (tc pc dc q : ℚ) :
    (0 < pc → safe_pct_change tc pc = some ((tc - pc) / pc * 100))
    ∧ (ilocNeg (df.map Bar.close) 1 = .ok tc →
        ilocNeg (df.map Bar.close) 2 = .ok pc →
        safe_pct_change tc pc = some dc → cfg.max_day_change < dc →
        ∀ row, evaluate cfg t df ≠ .ok (some row))
    ∧ (q ≤ 100 → ∃ row, evaluate cfgA "7203.T" (calmSeries q) = .ok (some row)
        ∧ row.day_change_pct = q - 100) := by
  refine ⟨fun hpc => ?_, fun h1 h2 h3 hgt row h => ?_, fun hq => ?_⟩
  · rw [safe_pct_change, if_neg (not_le.2 hpc)]
  · obtain ⟨-, ⟨tc2, pc2, dc2, e1, e2, e3, hle, -⟩, -, -⟩ := evaluate_pass h
    rw [h1] at e1
    rw [h2] at e2
    cases Except.ok.inj e1
    cases Except.ok.inj e2
    rw [h3] at e3
    cases Option.some_inj.mp e3
    exact absurd hle (not_le.2 hgt)
  · refine ⟨_, evaluate_calm q hq, ?_⟩
    show (q - 100) / 100 * 100 = q - 100
    ring

/-- Witness for C3: the formula at `(50, 100)`; a calm series closing at
`-900` (day-change `-1000`) still collected; a calm series closing at 200
(day-change `+100 > 15`) excluded. -/
theorem C3_day_change_filter_witness :
    ((0 : ℚ) < 100 ∧ safe_pct_change 50 100 = some ((50 - 100) / 100 * 100))
    ∧ (∃ row, evaluate cfgA "7203.T" (calmSeries (-900)) = .ok (some row)
        ∧ row.day_change_pct = -900 - 100)
    ∧ (∀ row, evaluate cfgA "7203.T" (calmSeries 200) ≠ .ok (some row)) := by
  refine ⟨⟨by norm_num,
      (C3_day_change_filter cfgA "x" [] 50 100 0 0).1 (by norm_num)⟩,
    (C3_day_change_filter cfgA "x" [] 0 0 0 (-900)).2.2 (by norm_num), ?_⟩
  exact (C3_day_change_filter cfgA "7203.T" (calmSeries 200) 200 100
      ((200 - 100) / 100 * 100) 0).2.1
    (calm_close1 200) (calm_close2 200) (by norm_num [safe_pct_change])
    (by norm_num [cfgA])

/-- Claim C10: on any series meeting the minimum-bar-count precondition the
evaluator is total — every positional access is in bounds and every
division has a guarded positive denominator, so it always returns `.ok`
(a skip or a row), never an index error or a division by zero. -/
theorem C10_evaluator_total (cfg : Config) (t : String) (df : List Bar)
    (h : min_bars cfg ≤ df.length) :
    ∃ res, evaluate cfg t df = .ok res := by
  have h10 := min_bars_ge_ten cfg
  obtain ⟨tc, hc1⟩ := ilocNeg_ok (l := df.map Bar.close) (k := 1)
    (by omega) (by simp; omega)
  obtain ⟨pc, hc2⟩ := ilocNeg_ok (l := df.map Bar.close) (k := 2)
    (by omega) (by simp; omega)
  obtain ⟨tv, hv1⟩ := ilocNeg_ok (l := df.map Bar.volume) (k := 1)
    (by omega) (by simp; omega)
  obtain ⟨pv, hv2⟩ := ilocNeg_ok (l := df.map Bar.volume) (k := 2)
    (by omega) (by simp; omega)
  obtain ⟨ld, hd1⟩ := ilocNeg_ok (l := df.map Bar.date) (k := 1)
    (by omega) (by simp; omega)
  unfold evaluate
  rw [if_neg (length_guard_passes h), hc1]
  simp only []
  rw [hc2]
  simp only []
  cases hc3 : safe_pct_change tc pc with
  | none => exact ⟨none, rfl⟩
  | some dc =>
  simp only []
  by_cases hc4 : cfg.max_day_change < dc
  · rw [if_pos hc4]
    exact ⟨none, rfl⟩
  rw [if_neg hc4]
  cases hc5 : recent_avg_of cfg (df.map Bar.volume) with
  | none =>
    cases hc6 : base_avg_of cfg (df.map Bar.volume) <;> exact ⟨none, rfl⟩
  | some ra =>
  cases hc6 : base_avg_of cfg (df.map Bar.volume) with
  | none => exact ⟨none, rfl⟩
  | some ba =>
  simp only []
  by_cases hc7 : ba ≤ 0
  · rw [if_pos hc7]
    exact ⟨none, rfl⟩
  rw [if_neg hc7]
  by_cases hc8 : ba < cfg.min_base_avg_vol
  · rw [if_pos hc8]
    exact ⟨none, rfl⟩
  rw [if_neg hc8, checkedDiv_ok_of_ne (fun hz => hc7 (le_of_eq hz))]
  simp only []
  by_cases hc9 : ra / ba < cfg.min_recent_ratio
  · rw [if_pos hc9]
    exact ⟨none, rfl⟩
  rw [if_neg hc9, hv1]
  simp only []
  cases hc11 : spike_base_of cfg (df.map Bar.volume) with
  | none => exact ⟨none, rfl⟩
  | some sb =>
  simp only []
  by_cases hc12 : sb ≤ 0
  · rw [if_pos hc12]
    exact ⟨none, rfl⟩
  rw [if_neg hc12, checkedDiv_ok_of_ne (fun hz => hc12 (le_of_eq hz))]
  simp only []
  by_cases hc13 : tv / sb < cfg.min_spike
  · rw [if_pos hc13]
    exact ⟨none, rfl⟩
  rw [if_neg hc13, hv2]
  simp only []
  by_cases hc15 : pv < sb
  · rw [if_pos hc15]
    exact ⟨none, rfl⟩
  rw [if_neg hc15, hd1]
  exact ⟨_, rfl⟩

/-- Witness for C10 on the calm series (length 20 = `min_bars cfgA`). -/
theorem C10_evaluator_total_witness :
    min_bars cfgA ≤ (calmSeries 100).length ∧
      ∃ res, evaluate cfgA "7203.T" (calmSeries 100) = .ok res :=
  ⟨by norm_num [cfgA, min_bars, calmSeries],
    C10_evaluator_total cfgA "7203.T" (calmSeries 100)
      (by norm_num [cfgA, min_bars, calmSeries])⟩

/-- Claim C4: a fetched series with fewer than
`max(recent_days + base_days + 5, spike_days + 5, base_days + 10)` bars is
skipped by the evaluator, and the symbol contributes no row to the output. -/
theorem C4_short_series_skipped (cfg : Config) (t : String) (df : List Bar)
    (h : df.length < min_bars cfg) :
    evaluate cfg t df = .ok none ∧
    ∀ fetch : String → ℕ → Option RawFrame,
      fetch_norm (fetch t cfg.lookback_days) = df → screenRow cfg fetch t = none := by
  have he : evaluate cfg t df = .ok none := by simp [evaluate, h]
  exact ⟨he, fun fetch hf => by simp [screenRow, hf, he]⟩

/-- Witness for C4: a 3-bar series is below `min_bars cfgA = 20` and is
skipped. -/
theorem C4_short_series_skipped_witness :
    (List.replicate 3 (flatBar 100 100)).length < min_bars cfgA ∧
      evaluate cfgA "7203.T" (List.replicate 3 (flatBar 100 100)) = .ok none :=
  ⟨by decide, (C4_short_series_skipped cfgA "7203.T" _ (by decide)).1⟩

/-- Claim C7: a `None`/empty provider response or a missing required column
yields an empty normalized result (never an error), and an empty result
makes the evaluator skip the symbol. -/
theorem C7_empty_or_missing_column (f : RawFrame) (cfg : Config) (t : String) :
    fetch_norm none = []
    ∧ (f.rows = [] → fetch_norm (some f) = [])
    ∧ (∀ c ∈ keep_cols, (renameDate f.cols).contains c = false → fetch_norm (some f) = [])
    ∧ evaluate cfg t [] = .ok none := by
  refine ⟨rfl, fun hr => by simp [fetch_norm, hr], fun c hc hcc => ?_, by simp [evaluate]⟩
  by_cases hrows : f.rows.isEmpty
  · simp [fetch_norm, hrows]
  · have hall : (keep_cols.all fun c => (renameDate f.cols).contains c) = false := by
      simp only [List.all_eq_false]
      exact ⟨c, hc, by simpa using hcc⟩
    simp only [fetch_norm]
    rw [if_neg hrows, if_neg (by rw [hall]; exact Bool.false_ne_true)]

/-- Witness for C7: a frame lacking the `Volume` column normalizes to the
empty series, and the empty series is skipped. -/
theorem C7_empty_or_missing_column_witness :
    ("Volume" ∈ keep_cols ∧
      (renameDate (RawFrame.mk ["Date", "Open", "Close"]
        [[some 1, some 2, some 3]]).cols).contains "Volume" = false)
    ∧ fetch_norm (some (RawFrame.mk ["Date", "Open", "Close"]
        [[some 1, some 2, some 3]])) = []
    ∧ evaluate cfgA "7203.T" [] = .ok none := by
  have h := C7_empty_or_missing_column
    (RawFrame.mk ["Date", "Open", "Close"] [[some 1, some 2, some 3]]) cfgA "7203.T"
  exact ⟨⟨by decide, by decide⟩, h.2.2.1 "Volume" (by decide) (by decide), h.2.2.2⟩

/-- Claim C8: an empty parsed ticker list aborts the run on the input-error
path, with no fetch attempted (the fetch log is empty). -/
theorem C8_empty_codes_abort (cfg : Config) (text : String)
    (fetch : String → ℕ → Option RawFrame) (h : parse_codes text = []) :
    runScreen cfg text fetch = (.inputError, []) := by
  simp [runScreen, h]

/-- Witness for C8: whitespace-and-separator-only input parses to an empty
code list and the run aborts before fetching. -/
theorem C8_empty_codes_abort_witness :
    parse_codes " , ,\n " = [] ∧
      runScreen cfgA " , ,\n " (fun _ _ => none) = (.inputError, []) :=
  ⟨by decide, C8_empty_codes_abort cfgA " , ,\n " (fun _ _ => none) (by decide)⟩

end TSE
